import Mathlib

/-!
Verification of the amenity-enrichment pipeline in
`src/find_amenities_near_route.py`.

Modelling conventions:

* A track point is a pair of rational coordinates `(latitude, longitude)`.
* The floating-point `haversine` function (source lines 101-105) computes a
  great-circle distance with transcendental functions; it is modelled here as
  an abstract distance oracle `d : Pt → Pt → ℚ` passed to every definition
  that calls it.  All algorithmic claims are proved for an arbitrary oracle,
  which in particular covers the haversine instance; where a claim needs a
  property of the haversine values themselves (non-negativity, a concrete
  geometry) that property appears as an explicit hypothesis or as a concrete
  lookup-table oracle.
* Python `dict` tag mappings become association lists with first-match
  lookup; Python truthiness of `x or y` on optional strings is modelled
  exactly (both `None` and the empty string are falsy).
* The string formatting of waypoint descriptions is not modelled; instead the
  three numeric values that the source formats into the description
  (`dist_start`, `dist_end`, `dist_route`, source lines 346-350) are kept as
  fields of the synthesized waypoint.
* Wall-clock time, file mtimes and the random jitter are modelled as explicit
  rational parameters / oracles.
-/

namespace FindAmenities

/-- A track point: (latitude, longitude). -/
abbrev Pt : Type := ℚ × ℚ

/-! ## Route sampler (source lines 111-121)

```
points = []
last_pt = None
for trk in gpx.tracks:
  for seg in trk.segments:
    for p in seg.points:
      if last_pt is None or haversine(last_pt…, p…) >= DISTANCE_STEP:
        points.append(p); last_pt = p
```
-/

/-- One pass of the sampling loop, carrying `last_pt : Option Pt`. -/
def sampleGo (d : Pt → Pt → ℚ) (step : ℚ) : Option Pt → List Pt → List Pt
  | _, [] => []
  | none, p :: rest => p :: sampleGo d step (some p) rest
  | some lp, p :: rest =>
      if step ≤ d lp p then p :: sampleGo d step (some p) rest
      else sampleGo d step (some lp) rest

/-- The sampled point list `points` produced by the module-level loop. -/
def samplePoints (d : Pt → Pt → ℚ) (step : ℚ) (pts : List Pt) : List Pt :=
  sampleGo d step none pts

/-! ## Cumulative distance table (source lines 297-312) -/

/-- Tail of the cumulative-distance loop: `prev` is the previous route point,
`acc` the cumulative distance accumulated so far. -/
def cumGo (d : Pt → Pt → ℚ) : Pt → ℚ → List Pt → List ℚ
  | _, _, [] => []
  | prev, acc, p :: rest => (acc + d prev p) :: cumGo d p (acc + d prev p) rest

/-- `cumulative_distances` starts as `[0]` and, for every point after the
first, appends the previous entry plus the haversine distance from the
previous point (source lines 298-309).  Note that the initial `[0]` is
present even when the point sequence is empty. -/
def cumulative_distances (d : Pt → Pt → ℚ) : List Pt → List ℚ
  | [] => [0]
  | p :: rest => 0 :: cumGo d p 0 rest

/-- `total_route_distance = cumulative_distances[-1] if cumulative_distances
else 0` (source line 311); the table is never empty. -/
def total_route_distance (d : Pt → Pt → ℚ) (pts : List Pt) : ℚ :=
  ((cumulative_distances d pts).getLast?).getD 0

/-- Direct recomputation of the route length: sum of the oracle distances
over consecutive pairs of the full point sequence. -/
def pairSum (d : Pt → Pt → ℚ) (pts : List Pt) : ℚ :=
  ((pts.zip pts.tail).map (fun q => d q.1 q.2)).sum

/-! ## Nearest point on route (source lines 314-336) -/

/-- The linear scan of `calculate_distances`: `i` is the index of the next
point, `ci` the index of the current best, `best` the current minimum
distance (`none` models the initial `float('inf')`, which any actual
distance beats). -/
def nearestLoop (d : Pt → Pt → ℚ) (f : Pt) :
    ℕ → ℕ → Option ℚ → List Pt → ℕ × Option ℚ
  | _, ci, best, [] => (ci, best)
  | i, ci, best, p :: rest =>
      match best with
      | none => nearestLoop d f (i + 1) i (some (d p f)) rest
      | some m =>
          if d p f < m then nearestLoop d f (i + 1) i (some (d p f)) rest
          else nearestLoop d f (i + 1) ci (some m) rest

/-- `calculate_distances(amenity_lat, amenity_lon)` (source lines 314-336):
returns `(dist_from_start_km, dist_to_end_km, min_dist_to_route_m)`;
`(0,0,0)` for an empty route.  The list lookups are total (`getD`) but are
only reached with in-bounds indices, as proved below. -/
def calculate_distances (d : Pt → Pt → ℚ) (routePts : List Pt) (f : Pt) :
    ℚ × ℚ × ℚ :=
  if routePts.isEmpty then (0, 0, 0)
  else
    let cum := cumulative_distances d routePts
    let r := nearestLoop d f 0 0 none routePts
    let cumAt := cum.getD r.1 0
    (cumAt / 1000, (total_route_distance d routePts - cumAt) / 1000,
      (r.2).getD 0)

/-! ## Features, tags and Python truthiness -/

/-- Tag mapping, as an association list (Python `dict` with string keys);
keys are unique in real data, lookup takes the first match. -/
abbrev Tags : Type := List (String × String)

/-- `tags.get(k)`: `None` when absent, the value otherwise. -/
def tags_get (tags : Tags) (k : String) : Option String :=
  (tags.find? (fun kv => kv.1 == k)).map (fun kv => kv.2)

/-- Python `a or b` on optional strings: `a` unless it is falsy (`None` or
the empty string), in which case `b` — whatever `b` is. -/
def py_or (a b : Option String) : Option String :=
  match a with
  | some v => if v = "" then b else some v
  | none => b

/-- `tags.get("amenity") or tags.get("shop")` (source lines 420 and 440,
identical in the node and way loops). -/
def amenity_type_of (tags : Tags) : Option String :=
  py_or (tags_get tags "amenity") (tags_get tags "shop")

/-- An Overpass node result: id, coordinates, tags (source line 161 shape). -/
structure Node where
  id : ℤ
  lat : ℚ
  lon : ℚ
  tags : Tags
deriving DecidableEq

/-- An Overpass way result: id, optional provided centre (from `out center`),
tags, and constituent nodes.  Cache-loaded ways are rebuilt with
`nodes = []` (source line 162). -/
structure Way where
  id : ℤ
  center_lat : Option ℚ
  center_lon : Option ℚ
  tags : Tags
  nodes : List Node
deriving DecidableEq

/-! ## Waypoint synthesis (source lines 338-448) -/

/-- The output waypoint.  The three `dist_*` fields are the numeric values
that the source formats into the description string (lines 346-350); the
description/link text formatting itself is not modelled. -/
structure Waypoint where
  latitude : ℚ
  longitude : ℚ
  name : String
  dist_start : ℚ
  dist_end : ℚ
  dist_route : ℚ
  symbol : String
  category : String
deriving DecidableEq

/-- The `if amenity_type:` chain of `add_wp` (source lines 379-410) mapping
the amenity type to `(wpt.symbol, wpt.type)`.  A `some ""` value is falsy in
Python and lands in the generic branch, which coincides with the final
`else` here. -/
def symbol_for (amenity_type : Option String) : String × String :=
  match amenity_type with
  | none => ("Waypoint", "Amenity")
  | some t =>
      if t = "cafe" then ("Restaurant", "Cafe")
      else if t = "restaurant" then ("Restaurant", "Restaurant")
      else if t = "pub" ∨ t = "bar" then ("Restaurant", "Pub/Bar")
      else if t = "fast_food" then ("Restaurant", "Fast Food")
      else if t = "toilets" then ("Restroom", "Toilets")
      else if t = "drinking_water" then ("Water Source", "Water Source")
      else if t = "fuel" then ("Gas Station", "Fuel Station")
      else if t = "bicycle" then ("Bike Trail", "Bike Shop")
      else ("Waypoint", "Amenity")

/-- The GPX container: tracks (each a list of segments, each a list of
points), routes, waypoints.  `gpxpy.gpx.GPX()` starts with all three
empty. -/
structure GPX where
  tracks : List (List (List Pt))
  routes : List (List Pt)
  waypoints : List Waypoint
deriving DecidableEq

/-- The `route_points` list of Step 3 (source lines 297-303): all points of
all segments of all tracks, in file order. -/
def route_points_of (gpx : GPX) : List Pt :=
  ((gpx.tracks.map (fun t => t.flatten)).flatten)

/-- `add_wp` (source lines 344-412): computes the route distances, the
symbol/category pair, and appends one waypoint to `new_gpx.waypoints`. -/
def add_wp (d : Pt → Pt → ℚ) (routePts : List Pt) (g : GPX) (lat lon : ℚ)
    (name : String) (amenity_type : Option String) : GPX :=
  let r := calculate_distances d routePts (lat, lon)
  let sc := symbol_for amenity_type
  GPX.mk g.tracks g.routes
    (g.waypoints ++ [Waypoint.mk lat lon name r.1 r.2.1 r.2.2 sc.1 sc.2])

/-- The node loop (source lines 416-425): skip ids already in `seen`, else
record the id and append a waypoint. -/
def process_nodes (d : Pt → Pt → ℚ) (routePts : List Pt) :
    List ℤ × GPX → List Node → List ℤ × GPX
  | sg, [] => sg
  | (seen, g), n :: rest =>
      if n.id ∈ seen then process_nodes d routePts (seen, g) rest
      else
        process_nodes d routePts
          (n.id :: seen,
            add_wp d routePts g n.lat n.lon
              ((tags_get n.tags "name").getD "Amenity")
              (amenity_type_of n.tags))
          rest

/-- Way centre (source lines 433-438): use the provided `center_lat` /
`center_lon` when both are present, otherwise average the constituent node
coordinates (only reached when `w.nodes` is non-empty). -/
def way_center (w : Way) : ℚ × ℚ :=
  match w.center_lat, w.center_lon with
  | some clat, some clon => (clat, clon)
  | _, _ =>
      ((w.nodes.map (fun n => n.lat)).sum / w.nodes.length,
        (w.nodes.map (fun n => n.lon)).sum / w.nodes.length)

/-- The way loop (source lines 427-448): skip ids already in `seen`, record
the id, and only `if w.nodes:` (non-empty) synthesize a waypoint at the way
centre. -/
def process_ways (d : Pt → Pt → ℚ) (routePts : List Pt) :
    List ℤ × GPX → List Way → List ℤ × GPX
  | sg, [] => sg
  | (seen, g), w :: rest =>
      if w.id ∈ seen then process_ways d routePts (seen, g) rest
      else
        if w.nodes.isEmpty then process_ways d routePts (w.id :: seen, g) rest
        else
          let c := way_center w
          process_ways d routePts
            (w.id :: seen,
              add_wp d routePts g c.1 c.2
                ((tags_get w.tags "name").getD "Amenity")
                (amenity_type_of w.tags))
            rest

/-- Step 4 of the pipeline (source lines 339-448): `seen = set()`, a fresh
`new_gpx` receiving the input tracks, then the node loop followed by the way
loop. -/
def enrich (d : Pt → Pt → ℚ) (gpx : GPX) (result_nodes : List Node)
    (result_ways : List Way) : GPX :=
  let routePts := route_points_of gpx
  (process_ways d routePts
    (process_nodes d routePts ([], GPX.mk gpx.tracks [] []) result_nodes)
    result_ways).2

/-! ## Cache store (source lines 148-189)

The on-disk cache file for one digest is modelled as
`Option (mtime × CacheFile)`; `no_cache` is the `--no-cache` flag, `now` the
current time and `ttl` the configured time-to-live. -/

/-- The serialized shape of a way in the cache file: id, centre, tags
(source line 181) — the constituent node list is not serialized. -/
structure SWay where
  id : ℤ
  center_lat : ℚ
  center_lon : ℚ
  tags : Tags
deriving DecidableEq

/-- The JSON document written by `save_cache` (source lines 174-184); nodes
are stored with exactly the `Node` fields. -/
structure CacheFile where
  created : ℚ
  nodes : List Node
  ways : List SWay
deriving DecidableEq

/-- `save_cache` (source lines 169-189): no-op when caching is disabled,
otherwise replace the file wholesale. -/
def save_cache (no_cache : Bool) (st : Option (ℚ × CacheFile)) (mtime : ℚ)
    (nodes_list : List Node) (ways_list : List SWay) :
    Option (ℚ × CacheFile) :=
  if no_cache then st
  else some (mtime, CacheFile.mk mtime nodes_list ways_list)

/-- `try_load_cache` (source lines 148-167): absent when caching is
disabled, the file is missing, or `age > ttl`; otherwise rebuild nodes with
their stored fields and ways with the stored centre and `nodes = []`. -/
def try_load_cache (no_cache : Bool) (st : Option (ℚ × CacheFile))
    (now ttl : ℚ) : Option (List Node × List Way) :=
  if no_cache then none
  else
    match st with
    | none => none
    | some (mtime, data) =>
        if ttl < now - mtime then none
        else
          some (data.nodes,
            data.ways.map (fun w =>
              Way.mk w.id (some w.center_lat) (some w.center_lon) w.tags []))

/-! ## Retry loop and batch loop (source lines 208-268)

The Geodata Client stub "fails with a rate-limit error `N` times, then
succeeds" is the parameter `N`: the query raised a retryable error on
attempts `1..N` and succeeds on attempt `N+1`.  `jit a` is the random
jitter drawn before sleeping after failed attempt `a` (the source draws it
uniformly from `[0, 0.3 * delay]`).  The result is `none` when the
exception propagates out of `run_query_with_retries`, otherwise
`some (attempt on which the query succeeded, list of backoff sleeps)`. -/

/-- The `for attempt in range(1, retries + 2)` loop (source lines 208-223),
with the current `delay` and the sleeps performed so far. -/
def retryGo (N retries : ℕ) (jit : ℕ → ℚ) (attempt : ℕ) (delay : ℚ)
    (sleeps : List ℚ) : Option (ℕ × List ℚ) :=
  if attempt ≤ N then
    if retries < attempt then none
    else retryGo N retries jit (attempt + 1) (2 * delay)
      (sleeps ++ [delay + jit attempt])
  else some (attempt, sleeps)
termination_by N + 1 - attempt

/-- `run_query_with_retries` against the `N`-failures-then-success stub:
attempts start at 1 with `delay = retry_backoff`. -/
def run_query_with_retries (N retries : ℕ) (backoff : ℚ) (jit : ℕ → ℚ) :
    Option (ℕ × List ℚ) :=
  retryGo N retries jit 1 backoff []

/-- First-occurrence-wins aggregation of one batch's nodes into the
`final_nodes` dict (source lines 256-258), modelled in insertion order. -/
def agg_nodes (acc : List Node) (ns : List Node) : List Node :=
  ns.foldl (fun a n => if a.any (fun x => x.id == n.id) then a else a ++ [n])
    acc

/-- First-occurrence-wins aggregation of one batch's ways into the
`final_ways` dict (source lines 260-262). -/
def agg_ways (acc : List Way) (ws : List Way) : List Way :=
  ws.foldl (fun a w => if a.any (fun x => x.id == w.id) then a else a ++ [w])
    acc

/-- The batch loop (source lines 245-268): each batch comes with its stub
failure count, its jitter oracle and the node/way lists its query would
return; a batch whose retries are exhausted is skipped (`continue`),
otherwise its results are merged first-occurrence-wins. -/
def process_batches (retries : ℕ) (backoff : ℚ) :
    List (ℕ × (ℕ → ℚ) × List Node × List Way) → List Node × List Way →
    List Node × List Way
  | [], acc => acc
  | (N, jit, ns, ws) :: rest, acc =>
      match run_query_with_retries N retries backoff jit with
      | none => process_batches retries backoff rest acc
      | some _ =>
          process_batches retries backoff rest
            (agg_nodes acc.1 ns, agg_ways acc.2 ws)

/-! ## Concrete instances used for counterexamples and witnesses

`dEx` is a concrete distance oracle realising the spec's two-point concrete
scenario: the two track points `P1`, `P2` are 2000 m apart and the feature
`FM` sits at the route midpoint, 50 m off the segment, hence about 1001 m
(`√(1000² + 50²) ≈ 1001.25`, rounded here to a rational 1001) from either
endpoint. -/

/-- First track point of the concrete scenario. -/
def P1 : Pt := (0, 0)

/-- Second track point of the concrete scenario, 2000 m along the route. -/
def P2 : Pt := (0, 9 / 500)

/-- The feature location: route midpoint, 50 m off the segment. -/
def FM : Pt := (9 / 20000, 9 / 1000)

/-- Concrete distance oracle for the scenario (values a haversine would
produce for such a geometry, as exact rationals). -/
def dEx : Pt → Pt → ℚ := fun a b =>
  if a = b then 0
  else if (a = P1 ∧ b = P2) ∨ (a = P2 ∧ b = P1) then 2000
  else 1001

/-- A one-track, one-segment, two-point GPX input. -/
def gpxC3 : GPX := GPX.mk [[[P1, P2]]] [] []

/-- The mocked feature of the scenario, placed at `FM`. -/
def nodeF : Node := Node.mk 1 FM.1 FM.2 [("amenity", "cafe")]

/-- A node with id 7 (for the deduplication counterexample). -/
def nodeA : Node := Node.mk 7 1 2 [("amenity", "cafe")]

/-- A way that shares the numeric id 7 with `nodeA` and has a non-empty
node list. -/
def wayA : Way := Way.mk 7 none none [("amenity", "pub")] [Node.mk 99 3 4 []]

/-- A way with a provided centroid but an empty constituent node list, as
every cache-loaded way is. -/
def wayC : Way := Way.mk 5 (some 1) (some 2) [("amenity", "cafe")] []

/-- A serialized way for the cache round-trip witness. -/
def swayA : SWay := SWay.mk 3 5 6 [("amenity", "pub")]

/-- An empty GPX input. -/
def gpx0 : GPX := GPX.mk [] [] []

/-- A pre-existing waypoint carried by the input file. -/
def wp0 : Waypoint := Waypoint.mk 0 0 "Home" 0 0 0 "Waypoint" "Amenity"

/-- A GPX input that already contains a waypoint of its own. -/
def gpxW : GPX := GPX.mk [] [] [wp0]

/-! ## Helper lemmas -/

theorem sampleGo_sublist (d : Pt → Pt → ℚ) (step : ℚ) :
    ∀ (l : List Pt) (last : Option Pt),
      List.Sublist (sampleGo d step last l) l := by
  intro l
  induction l with
  | nil => intro last; cases last <;> simp [sampleGo]
  | cons p rest ih =>
      intro last
      cases last with
      | none => simpa [sampleGo] using (ih (some p)).cons₂ p
      | some lp =>
          by_cases h : step ≤ d lp p
          · simp only [sampleGo, if_pos h]
            exact (ih (some p)).cons₂ p
          · simp only [sampleGo, if_neg h]
            exact (ih (some lp)).cons p

theorem sampleGo_chain (d : Pt → Pt → ℚ) (step : ℚ) :
    ∀ (l : List Pt) (lp : Pt),
      List.Chain' (fun a b => step ≤ d a b) (lp :: sampleGo d step (some lp) l) := by
  intro l
  induction l with
  | nil => intro lp; simp [sampleGo]
  | cons p rest ih =>
      intro lp
      by_cases h : step ≤ d lp p
      · simp only [sampleGo, if_pos h]
        exact List.chain'_cons.2 ⟨h, ih p⟩
      · simp only [sampleGo, if_neg h]
        exact ih lp

theorem cumGo_length (d : Pt → Pt → ℚ) :
    ∀ (l : List Pt) (p : Pt) (acc : ℚ), (cumGo d p acc l).length = l.length := by
  intro l
  induction l with
  | nil => intro p acc; simp [cumGo]
  | cons q rest ih => intro p acc; simp [cumGo, ih]

theorem cumGo_chain (d : Pt → Pt → ℚ) (hd : ∀ a b, 0 ≤ d a b) :
    ∀ (l : List Pt) (p : Pt) (acc : ℚ),
      List.Chain' (fun a b => a ≤ b) (acc :: cumGo d p acc l) := by
  intro l
  induction l with
  | nil => intro p acc; simp [cumGo]
  | cons q rest ih =>
      intro p acc
      simp only [cumGo]
      refine List.chain'_cons.2 ⟨?_, ih q (acc + d p q)⟩
      have := hd p q
      linarith

theorem pairSum_cons (d : Pt → Pt → ℚ) (p q : Pt) (rest : List Pt) :
    pairSum d (p :: q :: rest) = d p q + pairSum d (q :: rest) := by
  simp [pairSum]

theorem cumGo_getLast (d : Pt → Pt → ℚ) :
    ∀ (l : List Pt) (p : Pt) (acc : ℚ),
      (acc :: cumGo d p acc l).getLast? = some (acc + pairSum d (p :: l)) := by
  intro l
  induction l with
  | nil => intro p acc; simp [cumGo, pairSum]
  | cons q rest ih =>
      intro p acc
      rw [pairSum_cons]
      simp only [cumGo, List.getLast?_cons_cons]
      rw [ih q (acc + d p q)]
      ring_nf

theorem nearestLoop_go (d : Pt → Pt → ℚ) (f : Pt) :
    ∀ (l : List Pt) (i ci : ℕ) (m : ℚ),
      ∃ ci2 m2, nearestLoop d f i ci (some m) l = (ci2, some m2)
        ∧ m2 ≤ m
        ∧ (∀ j (hj : j < l.length), m2 ≤ d (l.get ⟨j, hj⟩) f)
        ∧ ((ci2 = ci ∧ m2 = m)
            ∨ ∃ j, ∃ hj : j < l.length, ci2 = i + j
                ∧ m2 = d (l.get ⟨j, hj⟩) f ∧ m2 < m
                ∧ ∀ k (hk : k < l.length), k < j → m2 < d (l.get ⟨k, hk⟩) f) := by
  intro l
  induction l with
  | nil =>
      intro i ci m
      refine ⟨ci, m, rfl, le_refl m, ?_, Or.inl ⟨rfl, rfl⟩⟩
      intro j hj
      simp at hj
  | cons p rest ih =>
      intro i ci m
      by_cases h : d p f < m
      · obtain ⟨ci2, m2, heq, hle, hall, hdisj⟩ := ih (i + 1) i (d p f)
        refine ⟨ci2, m2, ?_, le_trans hle (le_of_lt h), ?_, ?_⟩
        · simpa [nearestLoop, if_pos h] using heq
        · intro j hj
          cases j with
          | zero => simpa using hle
          | succ k =>
              have hk : k < rest.length := by simpa using hj
              simpa using hall k hk
        · rcases hdisj with ⟨hci, hm⟩ | ⟨j, hj, hci, hm, hlt, hstrict⟩
          · refine Or.inr ⟨0, by simp, by simpa using hci, ?_, ?_, ?_⟩
            · simpa using hm
            · rw [hm]; exact h
            · intro k hk hk0
              exact absurd hk0 (Nat.not_lt_zero k)
          · refine Or.inr ⟨j + 1, Nat.succ_lt_succ hj, by omega, ?_, ?_, ?_⟩
            · simpa using hm
            · exact lt_trans hlt h
            · intro k hk hkj
              cases k with
              | zero => simpa using hlt
              | succ k2 =>
                  have hk2 : k2 < rest.length := by simpa using hk
                  have : m2 < d (rest.get ⟨k2, hk2⟩) f :=
                    hstrict k2 hk2 (Nat.lt_of_succ_lt_succ hkj)
                  simpa using this
      · obtain ⟨ci2, m2, heq, hle, hall, hdisj⟩ := ih (i + 1) ci m
        have hmp : m ≤ d p f := not_lt.1 h
        refine ⟨ci2, m2, ?_, hle, ?_, ?_⟩
        · simpa [nearestLoop, if_neg h] using heq
        · intro j hj
          cases j with
          | zero => simpa using le_trans hle hmp
          | succ k =>
              have hk : k < rest.length := by simpa using hj
              simpa using hall k hk
        · rcases hdisj with hl | ⟨j, hj, hci, hm, hlt, hstrict⟩
          · exact Or.inl hl
          · refine Or.inr ⟨j + 1, Nat.succ_lt_succ hj, by omega, ?_, hlt, ?_⟩
            · simpa using hm
            · intro k hk hkj
              cases k with
              | zero => simpa using lt_of_lt_of_le hlt hmp
              | succ k2 =>
                  have hk2 : k2 < rest.length := by simpa using hk
                  have : m2 < d (rest.get ⟨k2, hk2⟩) f :=
                    hstrict k2 hk2 (Nat.lt_of_succ_lt_succ hkj)
                  simpa using this

/-! ## Claim theorems -/

/-- Claim C1: for every track, the route sampler emits the first track
point (same `head?` as the input, which also covers the empty track), the
emitted points form a subsequence of the original sequence in original
order, and any two consecutive emitted points are at least `distanceStep`
apart under the distance oracle. -/
theorem routeSampler_invariants (d : Pt → Pt → ℚ) (step : ℚ) (pts : List Pt) :
    (samplePoints d step pts).head? = pts.head?
    ∧ List.Sublist (samplePoints d step pts) pts
    ∧ List.Chain' (fun a b => step ≤ d a b) (samplePoints d step pts) := by
  refine ⟨?_, sampleGo_sublist d step pts none, ?_⟩
  · cases pts with
    | nil => simp [samplePoints, sampleGo]
    | cons p rest => simp [samplePoints, sampleGo]
  · cases pts with
    | nil => simp [samplePoints, sampleGo]
    | cons p rest =>
        simp only [samplePoints, sampleGo]
        exact sampleGo_chain d step rest p

/-- Claim C2 (amended: stated for non-empty point sequences; the oracle is
non-negative, as the haversine distance is): the cumulative table has one
entry per track point, starts at 0, is monotonically non-decreasing, and
its last entry is the sum of consecutive distances over the full
sequence. -/
theorem cumulative_table_invariants (d : Pt → Pt → ℚ) (pts : List Pt)
    (hd : ∀ a b, 0 ≤ d a b) (hne : pts ≠ []) :
    (cumulative_distances d pts).length = pts.length
    ∧ (cumulative_distances d pts).head? = some 0
    ∧ List.Chain' (fun a b => a ≤ b) (cumulative_distances d pts)
    ∧ (cumulative_distances d pts).getLast? = some (pairSum d pts) := by
  cases pts with
  | nil => exact absurd rfl hne
  | cons p rest =>
      refine ⟨?_, ?_, ?_, ?_⟩
      · simp [cumulative_distances, cumGo_length]
      · simp [cumulative_distances]
      · simpa [cumulative_distances] using cumGo_chain d hd rest p 0
      · simpa [cumulative_distances] using cumGo_getLast d rest p 0

/-- Claim C7: for every feature and non-empty track-point sequence, the
linear scan of `calculate_distances` returns an index attaining the minimum
oracle distance, that minimum is a lower bound on all distances, ties are
broken by the lowest index, and the returned `offRouteMeters` component is
exactly that minimum. -/
theorem nearest_point_search (d : Pt → Pt → ℚ) (f : Pt) (pts : List Pt)
    (hne : pts ≠ []) :
    ∃ ci m, nearestLoop d f 0 0 none pts = (ci, some m)
      ∧ (∃ hci : ci < pts.length, d (pts.get ⟨ci, hci⟩) f = m)
      ∧ (∀ j (hj : j < pts.length), m ≤ d (pts.get ⟨j, hj⟩) f)
      ∧ (∀ j (hj : j < pts.length), d (pts.get ⟨j, hj⟩) f = m → ci ≤ j)
      ∧ (calculate_distances d pts f).2.2 = m := by
  cases pts with
  | nil => exact absurd rfl hne
  | cons p rest =>
      obtain ⟨ci2, m2, heq, hle, hall, hdisj⟩ := nearestLoop_go d f rest 1 0 (d p f)
      have heqFull : nearestLoop d f 0 0 none (p :: rest) = (ci2, some m2) := by
        simpa [nearestLoop] using heq
      refine ⟨ci2, m2, heqFull, ?_, ?_, ?_, ?_⟩
      · rcases hdisj with ⟨hci, hm⟩ | ⟨j, hj, hci, hm, hlt, hstrict⟩
        · refine ⟨by simp [hci], ?_⟩
          subst hci
          simpa using hm.symm
        · have hci2 : ci2 < (p :: rest).length := by
            simp only [List.length_cons]
            omega
          refine ⟨hci2, ?_⟩
          have h1 : ci2 = j + 1 := by omega
          subst h1
          simpa using hm.symm
      · intro j hj
        cases j with
        | zero => simpa using hle
        | succ k =>
            have hk : k < rest.length := by simpa using hj
            simpa using hall k hk
      · intro j hj hdj
        rcases hdisj with ⟨hci, _⟩ | ⟨j0, hj0, hci, hm, hlt, hstrict⟩
        · simp [hci]
        · by_contra hcon
          push_neg at hcon
          cases j with
          | zero =>
              have : d p f = m2 := by simpa using hdj
              exact absurd this (ne_of_gt hlt)
          | succ k =>
              have hk : k < rest.length := by simpa using hj
              have hkj : k < j0 := by omega
              have hx : m2 < d (rest.get ⟨k, hk⟩) f := hstrict k hk hkj
              have hy : d (rest.get ⟨k, hk⟩) f = m2 := by simpa using hdj
              rw [hy] at hx
              exact lt_irrefl m2 hx
      · simp [calculate_distances, heqFull]

/-- Claim C7 witness: the scan on the concrete two-point route and the
concrete feature. -/
theorem nearest_point_search_witness :
    ∃ ci m, nearestLoop dEx FM 0 0 none [P1, P2] = (ci, some m)
      ∧ (∃ hci : ci < ([P1, P2] : List Pt).length,
          dEx (([P1, P2] : List Pt).get ⟨ci, hci⟩) FM = m)
      ∧ (∀ j (hj : j < ([P1, P2] : List Pt).length),
          m ≤ dEx (([P1, P2] : List Pt).get ⟨j, hj⟩) FM)
      ∧ (∀ j (hj : j < ([P1, P2] : List Pt).length),
          dEx (([P1, P2] : List Pt).get ⟨j, hj⟩) FM = m → ci ≤ j)
      ∧ (calculate_distances dEx [P1, P2] FM).2.2 = m :=
  nearest_point_search dEx FM [P1, P2] (by decide)

/-- Claim C2 witness: the invariants hold on the concrete two-point route. -/
theorem cumulative_table_invariants_witness :
    (cumulative_distances dEx [P1, P2]).length = ([P1, P2] : List Pt).length
    ∧ (cumulative_distances dEx [P1, P2]).head? = some 0
    ∧ List.Chain' (fun a b => a ≤ b) (cumulative_distances dEx [P1, P2])
    ∧ (cumulative_distances dEx [P1, P2]).getLast? = some (pairSum dEx [P1, P2]) :=
  cumulative_table_invariants dEx [P1, P2]
    (by
      intro a b
      simp only [dEx]
      split
      · norm_num
      · split <;> norm_num)
    (by decide)

/-- Claim C3 (amended): on a two-point track at least `distanceStep` apart
the sampler emits both points, but the waypoint distances are measured to
the nearest original track point, which is one of the two endpoints: the
returned triple is `(0, total/1000, d p1 f)` when the first endpoint is at
least as close (ties go to the lower index) and `(total/1000, 0, d p2 f)`
otherwise — so `fromStartKm` is 0 or the full route length, never the
midpoint value, and `offRouteMeters` is the distance to an endpoint. -/
theorem twoPointScenario_amended (d : Pt → Pt → ℚ) (p1 p2 f : Pt)
    (hstep : 1000 ≤ d p1 p2) :
    samplePoints d 1000 [p1, p2] = [p1, p2]
    ∧ (d p1 f ≤ d p2 f →
        calculate_distances d [p1, p2] f = (0, d p1 p2 / 1000, d p1 f))
    ∧ (d p2 f < d p1 f →
        calculate_distances d [p1, p2] f = (d p1 p2 / 1000, 0, d p2 f)) := by
  refine ⟨?_, ?_, ?_⟩
  · simp [samplePoints, sampleGo, hstep]
  · intro h
    have h2 : ¬ (d p2 f < d p1 f) := not_lt.2 h
    simp [calculate_distances, cumulative_distances, cumGo, nearestLoop,
      total_route_distance, h2]
  · intro h
    simp [calculate_distances, cumulative_distances, cumGo, nearestLoop,
      total_route_distance, h]

/-- Claim C3 amended witness: on the concrete scenario oracle the closest
endpoint is the first one (tie), giving `fromStartKm = 0`,
`remainingKm = 2` and `offRouteMeters = 1001`. -/
theorem twoPointScenario_amended_witness :
    calculate_distances dEx [P1, P2] FM = (0, dEx P1 P2 / 1000, dEx P1 FM) :=
  (twoPointScenario_amended dEx P1 P2 FM (by norm_num [dEx, P1, P2, Prod.ext_iff])).2.1
    (by norm_num [dEx, P1, P2, FM, Prod.ext_iff])

/-- Claim C3 counterexample: running the full pipeline on the concrete
two-point scenario (track points 2000 m apart, `distanceStep = 1000`,
feature at the midpoint 50 m off the segment and hence 1001 m from either
endpoint) yields 2 sample points as claimed, but the synthesized waypoint
carries `fromStartKm = 0` (not ≈ 1.0), `remainingKm = 2` (not ≈ 1.0) and
`offRouteMeters = 1001` (not ≈ 50). -/
theorem twoPointScenario_counterexample :
    samplePoints dEx 1000 (route_points_of gpxC3) = [P1, P2]
    ∧ (enrich dEx gpxC3 [nodeF] []).waypoints.map
        (fun w => (w.dist_start, w.dist_end, w.dist_route))
      = [((0 : ℚ), 2, 1001)] := by
  have hd12 : dEx P1 P2 = 2000 := by norm_num [dEx, P1, P2, Prod.ext_iff]
  have hd1F : dEx P1 FM = 1001 := by norm_num [dEx, P1, P2, FM, Prod.ext_iff]
  have hd2F : dEx P2 FM = 1001 := by norm_num [dEx, P1, P2, FM, Prod.ext_iff]
  have e1 : route_points_of gpxC3 = [P1, P2] := by
    simp [route_points_of, gpxC3]
  have hstep : (1000 : ℚ) ≤ dEx P1 P2 := by rw [hd12]; norm_num
  have hlt : ¬ (dEx P2 FM < dEx P1 FM) := by rw [hd1F, hd2F]; exact lt_irrefl 1001
  have e3 : calculate_distances dEx [P1, P2] FM = (0, 2, 1001) := by
    rw [calculate_distances]
    simp only [List.isEmpty_cons, nearestLoop, hlt, if_neg hlt,
      cumulative_distances, cumGo, total_route_distance]
    simp [hd12, hd1F]
    norm_num
  constructor
  · rw [e1]
    simp [samplePoints, sampleGo, hstep]
  · simp only [enrich, e1]
    simp [process_nodes, process_ways, add_wp, nodeF, gpxC3, e3, tags_get,
      amenity_type_of, py_or, symbol_for]

/-- Claim C2 counterexample: on the empty point sequence the code still
produces the single entry `[0]`, so the table does not have one entry per
original track point there (1 entry, 0 points). -/
theorem cumulative_table_empty_counterexample :
    (cumulative_distances dEx []).length = 1
    ∧ ([] : List Pt).length = 0 := by
  exact ⟨rfl, rfl⟩

/-- Claim C8 (amended: "present" must be read as "present with a non-empty
value", because Python's `or` treats the empty string as falsy): the amenity
tag is preferred whenever it is present and non-empty; the shop tag is used
when the amenity tag is absent or empty. -/
theorem amenity_preference_amended (tags : Tags) :
    (∀ v, tags_get tags "amenity" = some v → v ≠ "" →
        amenity_type_of tags = some v)
    ∧ (tags_get tags "amenity" = none →
        amenity_type_of tags = tags_get tags "shop")
    ∧ (tags_get tags "amenity" = some "" →
        amenity_type_of tags = tags_get tags "shop") := by
  refine ⟨?_, ?_, ?_⟩
  · intro v hv hne
    simp [amenity_type_of, py_or, hv, hne]
  · intro h
    simp [amenity_type_of, py_or, h]
  · intro h
    simp [amenity_type_of, py_or, h]

/-- Claim C8 amended witness: with both tags present and amenity non-empty,
amenity wins. -/
theorem amenity_preference_amended_witness :
    amenity_type_of [("amenity", "cafe"), ("shop", "bakery")] = some "cafe" :=
  (amenity_preference_amended [("amenity", "cafe"), ("shop", "bakery")]).1
    "cafe" (by simp [tags_get]) (by simp)

/-- Claim C8 counterexample: a feature carrying an `amenity` tag with the
empty-string value together with a `shop` tag gets the shop value, so the
amenity tag is not preferred whenever merely present. -/
theorem amenity_preference_counterexample :
    tags_get [("amenity", ""), ("shop", "bakery")] "amenity" = some ""
    ∧ amenity_type_of [("amenity", ""), ("shop", "bakery")] = some "bakery"
    ∧ (some "bakery" : Option String) ≠ some "" := by
  refine ⟨by simp [tags_get], ?_, by simp⟩
  simp [amenity_type_of, py_or, tags_get]

/-- The node loop skips a node whose id was already seen. -/
theorem process_nodes_skip (d : Pt → Pt → ℚ) (rp : List Pt) (seen : List ℤ)
    (g : GPX) (n : Node) (rest : List Node) (h : n.id ∈ seen) :
    process_nodes d rp (seen, g) (n :: rest)
      = process_nodes d rp (seen, g) rest := by
  simp [process_nodes, h]

/-- The node loop records an unseen id and appends its waypoint. -/
theorem process_nodes_add (d : Pt → Pt → ℚ) (rp : List Pt) (seen : List ℤ)
    (g : GPX) (n : Node) (rest : List Node) (h : n.id ∉ seen) :
    process_nodes d rp (seen, g) (n :: rest)
      = process_nodes d rp
          (n.id :: seen,
            add_wp d rp g n.lat n.lon ((tags_get n.tags "name").getD "Amenity")
              (amenity_type_of n.tags))
          rest := by
  simp [process_nodes, h]

/-- The way loop skips a way whose id was already seen. -/
theorem process_ways_skip (d : Pt → Pt → ℚ) (rp : List Pt) (seen : List ℤ)
    (g : GPX) (w : Way) (rest : List Way) (h : w.id ∈ seen) :
    process_ways d rp (seen, g) (w :: rest)
      = process_ways d rp (seen, g) rest := by
  simp [process_ways, h]

/-- Claim C5 (amended): deduplication is keyed by the bare numeric id shared
between the node and the way loops — feeding the same node twice yields
exactly one waypoint, and a node and a way with the same numeric id also
yield exactly one waypoint (the node's), not one each. -/
theorem dedup_by_bare_id (d : Pt → Pt → ℚ) (g : GPX) (n : Node) (w : Way)
    (hid : w.id = n.id) :
    (enrich d g [n, n] []).waypoints.length = 1
    ∧ (enrich d g [n] [w]).waypoints.length = 1 := by
  constructor
  · simp only [enrich]
    rw [process_nodes_add d _ _ _ _ _ (List.not_mem_nil n.id)]
    rw [process_nodes_skip d _ _ _ _ _ (List.mem_singleton.2 rfl)]
    simp [process_nodes, process_ways, add_wp]
  · simp only [enrich]
    rw [process_nodes_add d _ _ _ _ _ (List.not_mem_nil n.id)]
    simp only [process_nodes]
    rw [process_ways_skip d _ _ _ _ _ (List.mem_singleton.2 hid)]
    simp [process_ways, add_wp]

/-- Claim C5 amended witness: the concrete node and way sharing id 7. -/
theorem dedup_by_bare_id_witness :
    (enrich dEx gpx0 [nodeA, nodeA] []).waypoints.length = 1
    ∧ (enrich dEx gpx0 [nodeA] [wayA]).waypoints.length = 1 :=
  dedup_by_bare_id dEx gpx0 nodeA wayA rfl

/-- Claim C5 counterexample: `nodeA` (a node with id 7) and `wayA` (a way
with the same numeric id 7 and a non-empty node list) yield a single output
waypoint, not one each: the shared `seen` set keys on the bare id. -/
theorem dedup_shared_id_counterexample :
    (enrich dEx gpx0 [nodeA] []).waypoints.length = 1
    ∧ (enrich dEx gpx0 [] [wayA]).waypoints.length = 1
    ∧ (enrich dEx gpx0 [nodeA] [wayA]).waypoints.length = 1 := by
  refine ⟨?_, ?_, ?_⟩
  · simp [enrich, process_nodes, process_ways, add_wp]
  · simp [enrich, process_nodes, process_ways, add_wp, way_center, wayA]
  · simp [enrich, process_nodes, process_ways, add_wp, wayA, nodeA]

/-- Tracks and routes are untouched by the node loop. -/
theorem process_nodes_frame (d : Pt → Pt → ℚ) (rp : List Pt) :
    ∀ (ns : List Node) (sg : List ℤ × GPX),
      (process_nodes d rp sg ns).2.tracks = sg.2.tracks
      ∧ (process_nodes d rp sg ns).2.routes = sg.2.routes := by
  intro ns
  induction ns with
  | nil => intro sg; exact ⟨rfl, rfl⟩
  | cons n rest ih =>
      intro sg
      obtain ⟨seen, g⟩ := sg
      by_cases h : n.id ∈ seen
      · simpa [process_nodes, h] using ih (seen, g)
      · have h2 := ih (n.id :: seen,
          add_wp d rp g n.lat n.lon ((tags_get n.tags "name").getD "Amenity")
            (amenity_type_of n.tags))
        simp only [process_nodes, if_neg h] at h2 ⊢
        simpa [add_wp] using h2

/-- Tracks and routes are untouched by the way loop. -/
theorem process_ways_frame (d : Pt → Pt → ℚ) (rp : List Pt) :
    ∀ (ws : List Way) (sg : List ℤ × GPX),
      (process_ways d rp sg ws).2.tracks = sg.2.tracks
      ∧ (process_ways d rp sg ws).2.routes = sg.2.routes := by
  intro ws
  induction ws with
  | nil => intro sg; exact ⟨rfl, rfl⟩
  | cons w rest ih =>
      intro sg
      obtain ⟨seen, g⟩ := sg
      by_cases h : w.id ∈ seen
      · simpa [process_ways, h] using ih (seen, g)
      · by_cases he : w.nodes.isEmpty
        · have h2 := ih (w.id :: seen, g)
          simp only [process_ways, if_neg h, if_pos he] at h2 ⊢
          exact h2
        · have h2 := ih (w.id :: seen,
            add_wp d rp g (way_center w).1 (way_center w).2
              ((tags_get w.tags "name").getD "Amenity")
              (amenity_type_of w.tags))
          simp only [process_ways, if_neg h, if_neg he] at h2 ⊢
          simpa [add_wp] using h2

/-- Claim C9 (amended): the output keeps the input tracks unchanged and in
order, starts from an empty route and waypoint list, and the synthesized
output depends only on the input's tracks — in particular any waypoints or
routes carried by the input file are not carried over. -/
theorem output_frame (d : Pt → Pt → ℚ) (g g2 : GPX) (ns : List Node)
    (ws : List Way) (h : g2.tracks = g.tracks) :
    (enrich d g ns ws).tracks = g.tracks
    ∧ (enrich d g ns ws).routes = []
    ∧ enrich d g2 ns ws = enrich d g ns ws := by
  refine ⟨?_, ?_, ?_⟩
  · have hw := (process_ways_frame d (route_points_of g) ws
      (process_nodes d (route_points_of g) ([], GPX.mk g.tracks [] []) ns)).1
    have hn := (process_nodes_frame d (route_points_of g) ns
      ([], GPX.mk g.tracks [] [])).1
    simpa [enrich] using hw.trans hn
  · have hw := (process_ways_frame d (route_points_of g) ws
      (process_nodes d (route_points_of g) ([], GPX.mk g.tracks [] []) ns)).2
    have hn := (process_nodes_frame d (route_points_of g) ns
      ([], GPX.mk g.tracks [] [])).2
    simpa [enrich] using hw.trans hn
  · simp [enrich, route_points_of, h]

/-- Claim C9 witness: two inputs with the same (empty) tracks, one of which
carries its own waypoint, produce identical outputs — the input's waypoint
is not carried over. -/
theorem output_frame_witness :
    (enrich dEx gpx0 [] []).tracks = gpx0.tracks
    ∧ (enrich dEx gpx0 [] []).routes = []
    ∧ enrich dEx gpxW [] [] = enrich dEx gpx0 [] [] :=
  output_frame dEx gpx0 gpxW [] [] rfl

/-- Claim C9 counterexample: an input that already contains a waypoint
(`wp0`) loses it — the output waypoint list of a run with no features is
empty, so something from the input other than tracks is dropped. -/
theorem output_frame_counterexample :
    gpxW.waypoints ≠ [] ∧ (enrich dEx gpxW [] []).waypoints = [] := by
  exact ⟨by simp [gpxW], rfl⟩

/-- All-empty-node-list ways leave the GPX untouched. -/
theorem process_ways_all_empty (d : Pt → Pt → ℚ) (rp : List Pt) :
    ∀ (ws : List Way) (seen : List ℤ) (g : GPX),
      (∀ w ∈ ws, w.nodes = []) →
      (process_ways d rp (seen, g) ws).2 = g := by
  intro ws
  induction ws with
  | nil => intro seen g _; rfl
  | cons w rest ih =>
      intro seen g hall
      have hw : w.nodes = [] := hall w (List.mem_cons_self w rest)
      have he : w.nodes.isEmpty = true := by simp [hw]
      by_cases h : w.id ∈ seen
      · simp only [process_ways, if_pos h]
        exact ih seen g (fun x hx => hall x (List.mem_cons_of_mem w hx))
      · simp only [process_ways, if_neg h, if_pos he]
        exact ih (w.id :: seen) g (fun x hx => hall x (List.mem_cons_of_mem w hx))

/-- Claim C10: a way with an empty constituent node list never yields an
output waypoint, even when it carries a provided centroid; and every way
returned by a cache hit has an empty node list, so the cache-hit path emits
zero way waypoints. -/
theorem cached_ways_silent (d : Pt → Pt → ℚ) (rp : List Pt) (seen : List ℤ)
    (g : GPX) :
    (∀ ws : List Way, (∀ w ∈ ws, w.nodes = []) →
        (process_ways d rp (seen, g) ws).2.waypoints = g.waypoints)
    ∧ (∀ (st : Option (ℚ × CacheFile)) (now ttl : ℚ) (ns : List Node)
        (ws : List Way),
        try_load_cache false st now ttl = some (ns, ws) →
        ∀ w ∈ ws, w.nodes = []) := by
  constructor
  · intro ws hall
    rw [process_ways_all_empty d rp ws seen g hall]
  · intro st now ttl ns ws hload w hw
    cases st with
    | none => simp [try_load_cache] at hload
    | some md =>
        obtain ⟨mtime, data⟩ := md
        by_cases hT : ttl < now - mtime
        · simp [try_load_cache, hT] at hload
        · simp [try_load_cache, hT] at hload
          rw [← hload.2] at hw
          obtain ⟨w0, _, hw0⟩ := List.mem_map.1 hw
          rw [← hw0]

/-- Claim C10 witness: the concrete way `wayC` (provided centroid, empty
node list) yields no waypoint. -/
theorem cached_ways_silent_witness :
    (process_ways dEx [] ([], gpx0) [wayC]).2.waypoints = gpx0.waypoints :=
  (cached_ways_silent dEx [] [] gpx0).1 [wayC]
    (by
      intro w hw
      simp only [List.mem_singleton] at hw
      subst hw
      rfl)

/-- Claim C6: saving a feature set and loading it back before the TTL
expires returns the nodes verbatim and the ways with the same id, centroid
and tags (and an emptied node list); once the age exceeds the TTL the load
returns absent. -/
theorem cache_round_trip (st : Option (ℚ × CacheFile)) (mtime now ttl : ℚ)
    (ns : List Node) (ws : List SWay) :
    (now - mtime ≤ ttl →
      try_load_cache false (save_cache false st mtime ns ws) now ttl
        = some (ns, ws.map (fun w =>
            Way.mk w.id (some w.center_lat) (some w.center_lon) w.tags [])))
    ∧ (ttl < now - mtime →
      try_load_cache false (save_cache false st mtime ns ws) now ttl
        = none) := by
  constructor
  · intro h
    have h2 : ¬ (ttl < now - mtime) := not_lt.2 h
    simp [try_load_cache, save_cache, h2]
  · intro h
    simp [try_load_cache, save_cache, h]

/-- Claim C6 witness: a concrete save/load round-trip within the TTL. -/
theorem cache_round_trip_witness :
    try_load_cache false (save_cache false none 0 [nodeA] [swayA]) 10 100
      = some ([nodeA], ([swayA] : List SWay).map (fun w =>
          Way.mk w.id (some w.center_lat) (some w.center_lon) w.tags [])) :=
  (cache_round_trip none 0 10 100 [nodeA] [swayA]).1 (by norm_num)

theorem retryGo_success (N retries : ℕ) (jit : ℕ → ℚ) (hNr : N ≤ retries) :
    ∀ (k a : ℕ) (dly : ℚ) (s : List ℚ), a + k = N + 1 →
      retryGo N retries jit a dly s
        = some (N + 1,
            s ++ (List.range k).map (fun i => dly * 2 ^ i + jit (a + i))) := by
  intro k
  induction k with
  | zero =>
      intro a dly s ha
      have haN : ¬ (a ≤ N) := by omega
      rw [retryGo]
      simp [haN]
      omega
  | succ k ih =>
      intro a dly s ha
      have haN : a ≤ N := by omega
      have hra : ¬ (retries < a) := by omega
      rw [retryGo]
      rw [if_pos haN, if_neg hra]
      rw [ih (a + 1) (2 * dly) (s ++ [dly + jit a]) (by omega)]
      have hmap : ∀ i, (2 * dly) * 2 ^ i + jit (a + 1 + i)
          = dly * 2 ^ (i + 1) + jit (a + (i + 1)) := by
        intro i
        have h1 : a + 1 + i = a + (i + 1) := by omega
        rw [h1]
        ring_nf
      have hr : (List.range (k + 1)).map (fun i => dly * 2 ^ i + jit (a + i))
          = (dly + jit a)
            :: (List.range k).map (fun i => dly * 2 ^ (i + 1) + jit (a + (i + 1))) := by
        rw [List.range_succ_eq_map]
        simp [List.map_map, Function.comp]
      rw [hr]
      simp only [hmap]
      simp

theorem retryGo_fail (N retries : ℕ) (jit : ℕ → ℚ) (hNr : retries < N) :
    ∀ (k a : ℕ) (dly : ℚ) (s : List ℚ), a + k = retries + 1 →
      retryGo N retries jit a dly s = none := by
  intro k
  induction k with
  | zero =>
      intro a dly s ha
      have haN : a ≤ N := by omega
      have hra : retries < a := by omega
      rw [retryGo]
      rw [if_pos haN, if_pos hra]
  | succ k ih =>
      intro a dly s ha
      have haN : a ≤ N := by omega
      have hra : ¬ (retries < a) := by omega
      rw [retryGo]
      rw [if_pos haN, if_neg hra]
      exact ih (a + 1) (2 * dly) (s ++ [dly + jit a]) (by omega)

/-- Claim C4: against a stub that fails with a rate-limit error `N` times
then succeeds, the retry loop succeeds on attempt `N + 1` when
`N ≤ retries`, having slept exactly `N` backoff delays of
`retryBackoff * 2^i` plus the drawn jitter; when `N > retries` the
exception propagates (`none`) and the batch loop drops that batch and
continues with the remaining batches. -/
theorem retry_policy (N retries : ℕ) (backoff : ℚ) (jit : ℕ → ℚ)
    (ns : List Node) (ws : List Way)
    (rest : List (ℕ × (ℕ → ℚ) × List Node × List Way))
    (acc : List Node × List Way) :
    (N ≤ retries →
      run_query_with_retries N retries backoff jit
        = some (N + 1,
            (List.range N).map (fun i => backoff * 2 ^ i + jit (i + 1))))
    ∧ (retries < N →
      run_query_with_retries N retries backoff jit = none
      ∧ process_batches retries backoff ((N, jit, ns, ws) :: rest) acc
          = process_batches retries backoff rest acc) := by
  constructor
  · intro h
    have hs := retryGo_success N retries jit h N 1 backoff [] (by omega)
    have hmap : (List.range N).map (fun i => backoff * 2 ^ i + jit (1 + i))
        = (List.range N).map (fun i => backoff * 2 ^ i + jit (i + 1)) := by
      apply List.map_congr_left
      intro i _
      have h1 : 1 + i = i + 1 := by omega
      rw [h1]
    rw [run_query_with_retries, hs]
    simp [hmap]
  · intro h
    have hf := retryGo_fail N retries jit h retries 1 backoff [] (by omega)
    have hnone : run_query_with_retries N retries backoff jit = none := by
      rw [run_query_with_retries, hf]
    refine ⟨hnone, ?_⟩
    simp [process_batches, hnone]

/-- Claim C4 witness: with `retries = 4`, a stub failing twice succeeds on
attempt 3 after sleeping `1 + 0` and `2 + 0` seconds, and a stub failing 6
times makes the batch loop skip its batch. -/
theorem retry_policy_witness :
    run_query_with_retries 2 4 1 (fun _ => 0) = some (3, [1, 2])
    ∧ process_batches 4 1 [(6, fun _ => 0, [nodeA], [wayA])] ([], [])
        = process_batches 4 1 [] ([], []) := by
  constructor
  · have h := (retry_policy 2 4 1 (fun _ => 0) [] [] [] ([], [])).1 (by omega)
    rw [h]
    norm_num [List.range_succ]
  · exact ((retry_policy 6 4 1 (fun _ => 0) [nodeA] [wayA] [] ([], [])).2
      (by omega)).2

end FindAmenities
